import Mathlib

/-!
# Verification of `tensorfx` `src/data/_schema.py`

Shallow embedding of the schema module: `SchemaFieldType`, `SchemaField` and
`Schema`, with the checked constructor (`Schema.__init__`), the variadic
factory (`Schema.create`), YAML serialization (`Schema.format`),
deserialization (`Schema.parse`), the name-list property (`Schema.fields`)
and dual-mode lookup (`Schema.__getitem__`).

Modelling conventions:
* The code targets Python 2, where `map` returns a list; `map` is embedded as
  `List.map`.
* Python exceptions are embedded as `Except PyError _`; `PyError` records
  which exception class the interpreter raises (`ValueError`, `KeyError`,
  `AttributeError`, `IndexError`).
* The YAML text layer (`yaml.safe_dump` / `yaml.safe_load`) is an external
  codec that is the identity on the nested dict/list/str/int structure this
  module exchanges, so the serialized form is embedded as that structure
  (`SchemaSpec`, a list of `FieldRecord`s under the top-level `fields` key)
  rather than as the YAML string.
* A parsed field record always carries the mandatory `name` and `type` keys
  (a record missing either raises `KeyError` in the source and is outside the
  modelled input space); the optional `length` key is an `Option`.
* Python `int` is embedded as `Int` (field lengths are not range-checked by
  the source).
-/

/-- Exception classes the embedded code can raise. -/
inductive PyError where
  | valueError
  | keyError
  | attributeError
  | indexError
deriving DecidableEq, Repr

/-- `SchemaFieldType`: enumeration of the types of SchemaField instances,
with members `integer`, `real`, `discrete`. -/
inductive SchemaFieldType where
  | integer
  | real
  | discrete
deriving DecidableEq, Repr

namespace SchemaFieldType

/-- The `.name` of an enum member (Python `enum` name reflection); for this
enum each member's name equals its value string. -/
def name : SchemaFieldType → String
  | .integer => "integer"
  | .real => "real"
  | .discrete => "discrete"

/-- Enum lookup by name, `SchemaFieldType[s]`: `some t` when `s` names a
member, `none` when Python would raise `KeyError`. -/
def ofName : String → Option SchemaFieldType
  | "integer" => some .integer
  | "real" => some .real
  | "discrete" => some .discrete
  | _ => none

theorem ofName_name (t : SchemaFieldType) : ofName t.name = some t := by
  cases t <;> rfl

end SchemaFieldType

/-- `SchemaField`: a named and typed field within a Schema, with its
valence (`length`; 0 implies variable length). -/
structure SchemaField where
  name : String
  type : SchemaFieldType
  length : Int
deriving DecidableEq, Repr

namespace SchemaField

/-- Classmethod `SchemaField.discrete`. -/
def discrete (name : String) (length : Int) : SchemaField :=
  ⟨name, SchemaFieldType.discrete, length⟩

/-- Classmethod `SchemaField.integer`. -/
def integer (name : String) (length : Int) : SchemaField :=
  ⟨name, SchemaFieldType.integer, length⟩

/-- Classmethod `SchemaField.real`. -/
def real (name : String) (length : Int) : SchemaField :=
  ⟨name, SchemaFieldType.real, length⟩

/-- Property `numeric`: whether the field is integer or real. -/
def numeric (f : SchemaField) : Bool :=
  f.type = SchemaFieldType.integer ∨ f.type = SchemaFieldType.real

end SchemaField

/-- `Schema`: an ordered collection of fields. The stored `_field_map` dict
is a pure function of `_fields` and is embedded as the derived function
`Schema.field_map` below. -/
structure Schema where
  _fields : List SchemaField
deriving DecidableEq, Repr

/-- One dict insertion: `d[k] = v` overrides any earlier binding of `k`. -/
def dictInsert (d : String → Option SchemaField) (kv : String × SchemaField) :
    String → Option SchemaField :=
  fun k => if k = kv.1 then some kv.2 else d k

/-- `dict(pairs)`: a Python dict built from a pair list; later pairs with a
duplicate key override earlier ones. -/
def pyDict (pairs : List (String × SchemaField)) : String → Option SchemaField :=
  pairs.foldl dictInsert (fun _ => none)

/-- Python list indexing `l[i]`: nonnegative indices from the front, negative
indices from the back, `IndexError` out of range. -/
def pyListGet (l : List SchemaField) (i : Int) : Except PyError SchemaField :=
  if 0 ≤ i then
    if h : i.toNat < l.length then .ok (l.get ⟨i.toNat, h⟩) else .error .indexError
  else
    let j : Int := (l.length : Int) + i
    if 0 ≤ j then
      if h : j.toNat < l.length then .ok (l.get ⟨j.toNat, h⟩) else .error .indexError
    else .error .indexError

namespace Schema

/-- `Schema.__init__`: raises `ValueError` when the field list is empty,
otherwise stores the fields (the name→field dict it also builds is the
derived `field_map` below). -/
def init (fields : List SchemaField) : Except PyError Schema :=
  if fields.length = 0 then .error .valueError
  else .ok ⟨fields⟩

/-- `self._field_map = dict(map(lambda f: (f.name, f), fields))`. -/
def field_map (s : Schema) : String → Option SchemaField :=
  pyDict (s._fields.map (fun f => (f.name, f)))

/-- An argument to the variadic `Schema.create(*args)`: each positional
argument is either a single field or a Python `list` of fields. -/
inductive CreateArg where
  | field (f : SchemaField)
  | fieldList (l : List SchemaField)
deriving DecidableEq, Repr

/-- Using a `create` argument as a field inside `Schema.__init__`'s dict
construction: `f.name` on a `list` raises `AttributeError`. -/
def CreateArg.asField : CreateArg → Except PyError SchemaField
  | .field f => .ok f
  | .fieldList _ => .error .attributeError

/-- `Schema.create(*args)`: raises `ValueError` on zero arguments; when the
first argument is a `list` (checked with `type(args[0]) == list`) it is passed
to `Schema.__init__` and the remaining arguments are ignored; otherwise
`list(args)` itself is the field list. -/
def create (args : List CreateArg) : Except PyError Schema :=
  match args with
  | [] => .error .valueError
  | .fieldList l :: _ => init l
  | .field f :: rest => do
      let fs ← rest.mapM CreateArg.asField
      init (f :: fs)

/-- One record of the serialized `fields` list: the dict
`{'name': ..., 'type': ..., 'length': ...}`, with `length` optional on the
parsing side (`f.get('length', 1)`). -/
structure FieldRecord where
  name : String
  type : String
  length : Option Int
deriving DecidableEq, Repr

/-- The structured content of the YAML specification: the top-level
`{'fields': [...]}` dict. -/
structure SchemaSpec where
  fields : List FieldRecord
deriving DecidableEq, Repr

/-- `Schema.format`: serialize each field to a record carrying its name, its
type's enum name, and its length, under the top-level `fields` key. -/
def format (s : Schema) : SchemaSpec :=
  ⟨s._fields.map (fun f => ⟨f.name, f.type.name, some f.length⟩)⟩

/-- Parsing one record:
`SchemaField(f['name'], SchemaFieldType[f['type']], f.get('length', 1))`;
an unknown type name raises `KeyError`. -/
def parseField (r : FieldRecord) : Except PyError SchemaField :=
  match SchemaFieldType.ofName r.type with
  | some t => .ok ⟨r.name, t, r.length.getD 1⟩
  | none => .error .keyError

/-- The argument of `Schema.parse`: either an already-constructed Schema
instance or a textual specification. -/
inductive SpecInput where
  | schema (s : Schema)
  | text (spec : SchemaSpec)
deriving DecidableEq, Repr

/-- `Schema.parse(spec)`: a Schema instance is returned unchanged; otherwise
the specification's records are parsed in order and the result is passed to
`Schema.__init__`. -/
def parse : SpecInput → Except PyError Schema
  | .schema s => .ok s
  | .text spec => do
      let fields ← spec.fields.mapM parseField
      init fields

/-- Property `Schema.fields`: the names of the fields, in schema order. -/
def fields (s : Schema) : List String :=
  s._fields.map SchemaField.name

/-- The index argument of `Schema.__getitem__`: an `int` or a name. -/
inductive Index where
  | int (i : Int)
  | name (n : String)
deriving DecidableEq, Repr

/-- `Schema.__getitem__`: for an `int` index, return the field at that
position when `len(self._fields) > index` and `None` otherwise (the
positional access uses Python list indexing, so negative indices reach the
guarded branch); for a name, `self._field_map.get(index, None)`. -/
def getitem (s : Schema) : Index → Except PyError (Option SchemaField)
  | .int i =>
      if (s._fields.length : Int) > i then
        (pyListGet s._fields i).map some
      else .ok none
  | .name n => .ok (s.field_map n)

end Schema

deriving instance DecidableEq for Except

/-! ## Helper lemmas -/

theorem init_ok_iff (fs : List SchemaField) (s : Schema) :
    Schema.init fs = Except.ok s ↔ fs ≠ [] ∧ s = Schema.mk fs := by
  have hlen : fs.length = 0 ↔ fs = [] := List.length_eq_zero
  by_cases h : fs = []
  · simp [Schema.init, hlen.mpr h, h]
  · simp [Schema.init, hlen, h, eq_comm]

/-! ## Claim theorems -/

/-- C4: constructing a Schema from an empty field sequence, or calling the
variadic `create` factory with zero arguments, fails with the
`InvalidArgument`-class error (`ValueError`); consequently every successfully
constructed Schema has at least one field. -/
theorem c4_nonempty :
    Schema.init [] = Except.error PyError.valueError
    ∧ Schema.create [] = Except.error PyError.valueError
    ∧ ∀ (fields : List SchemaField) (s : Schema),
        Schema.init fields = Except.ok s → s._fields ≠ [] := by
  refine ⟨rfl, rfl, fun fields s hs => ?_⟩
  obtain ⟨hne, rfl⟩ := (init_ok_iff fields s).mp hs
  exact hne

/-- Witness for C4 at the one-field list `[integer "a" 1]`. -/
theorem c4_witness :
    (Schema.mk [SchemaField.integer "a" 1])._fields ≠ [] :=
  c4_nonempty.2.2 [SchemaField.integer "a" 1] (Schema.mk [SchemaField.integer "a" 1]) rfl

/-- C5: `parse` given an already-constructed Schema instance returns it
unchanged. -/
theorem c5_parse_identity (s : Schema) :
    Schema.parse (.schema s) = Except.ok s := rfl

/-- C10: when `create` is called with a Python `list` as its first argument,
all further arguments are silently ignored: the call behaves exactly as
`Schema.__init__` on that first list, and for a non-empty first list the
resulting Schema's fields are exactly that list. -/
theorem c10_create_ignores_rest (l : List SchemaField) (rest : List Schema.CreateArg) :
    Schema.create (Schema.CreateArg.fieldList l :: rest) = Schema.init l
    ∧ (l ≠ [] →
        Schema.create (Schema.CreateArg.fieldList l :: rest) = Except.ok (Schema.mk l)) := by
  refine ⟨rfl, fun h => ?_⟩
  simp [Schema.create, Schema.init, List.length_eq_zero, h]

/-- Witness for C10: a list first argument followed by an extra field
argument that is dropped. -/
theorem c10_witness :
    Schema.create
        [Schema.CreateArg.fieldList [SchemaField.integer "a" 1],
         Schema.CreateArg.field (SchemaField.real "b" 2)]
      = Except.ok (Schema.mk [SchemaField.integer "a" 1]) :=
  (c10_create_ignores_rest [SchemaField.integer "a" 1]
    [Schema.CreateArg.field (SchemaField.real "b" 2)]).2 (by decide)

theorem mapM_parseField_format (l : List SchemaField) :
    (l.map (fun f =>
        (⟨f.name, f.type.name, some f.length⟩ : Schema.FieldRecord))).mapM Schema.parseField
      = Except.ok l := by
  induction l with
  | nil => rfl
  | cons f l ih =>
      rw [List.map_cons, List.mapM_cons, ih]
      have hf : Schema.parseField ⟨f.name, f.type.name, some f.length⟩ = Except.ok f := by
        unfold Schema.parseField
        rw [SchemaFieldType.ofName_name]
        rfl
      rw [hf]
      rfl

theorem mapM_parseField_error (l : List Schema.FieldRecord) (r : Schema.FieldRecord)
    (hr : r ∈ l) (ht : SchemaFieldType.ofName r.type = none) :
    l.mapM Schema.parseField = Except.error PyError.keyError := by
  induction l with
  | nil => cases hr
  | cons a l ih =>
      rw [List.mapM_cons]
      rcases List.mem_cons.mp hr with rfl | hmem
      · have hrk : Schema.parseField r = Except.error PyError.keyError := by
          unfold Schema.parseField
          rw [ht]
        rw [hrk]
        rfl
      · cases ha : Schema.parseField a with
        | error e =>
            have he : e = PyError.keyError := by
              unfold Schema.parseField at ha
              split at ha
              · cases ha
              · cases ha; rfl
            rw [he]
            rfl
        | ok f =>
            rw [ih hmem]
            rfl

/-- C1: for every valid (non-empty) Schema `s`, `parse (format s)`
reproduces `s` exactly: same ordered list of (name, type, length) fields. -/
theorem c1_roundtrip (s : Schema) (h : s._fields ≠ []) :
    Schema.parse (.text (Schema.format s)) = Except.ok s := by
  show (do
    let fields ← (s._fields.map (fun f =>
      (⟨f.name, f.type.name, some f.length⟩ : Schema.FieldRecord))).mapM Schema.parseField
    Schema.init fields) = Except.ok s
  rw [mapM_parseField_format]
  show Schema.init s._fields = Except.ok s
  unfold Schema.init
  rw [if_neg (by simpa [List.length_eq_zero] using h)]

/-- Witness for C1 at a two-field schema exercising all record keys. -/
theorem c1_witness :
    Schema.parse (.text (Schema.format
        (Schema.mk [SchemaField.integer "age" 1, SchemaField.discrete "city" 0])))
      = Except.ok (Schema.mk [SchemaField.integer "age" 1, SchemaField.discrete "city" 0]) :=
  c1_roundtrip (Schema.mk [SchemaField.integer "age" 1, SchemaField.discrete "city" 0])
    (by decide)

/-- C3: `parse` of a textual specification containing a record whose type
string names no `SchemaFieldType` member fails with the `KeyError` of the
enum lookup (the `InvalidArgument`-class parse failure), never substituting a
default type. -/
theorem c3_unknown_type (spec : Schema.SchemaSpec) (r : Schema.FieldRecord)
    (hr : r ∈ spec.fields) (ht : SchemaFieldType.ofName r.type = none) :
    Schema.parse (.text spec) = Except.error PyError.keyError := by
  show (do
    let fields ← spec.fields.mapM Schema.parseField
    Schema.init fields) = Except.error PyError.keyError
  rw [mapM_parseField_error spec.fields r hr ht]
  rfl

/-- Witness for C3 at the record `{name: a, type: string}`. -/
theorem c3_witness :
    Schema.parse (.text (Schema.SchemaSpec.mk [Schema.FieldRecord.mk "a" "string" none]))
      = Except.error PyError.keyError :=
  c3_unknown_type (Schema.SchemaSpec.mk [Schema.FieldRecord.mk "a" "string" none])
    (Schema.FieldRecord.mk "a" "string" none) (by decide) rfl

theorem foldl_dictInsert (pairs : List (String × SchemaField))
    (d : String → Option SchemaField) (k : String) :
    pairs.foldl dictInsert d k =
      match pairs.reverse.find? (fun p => k == p.1) with
      | some p => some p.2
      | none => d k := by
  induction pairs generalizing d with
  | nil => rfl
  | cons p pairs ih =>
      rw [List.foldl_cons, ih, List.reverse_cons, List.find?_append]
      cases h : pairs.reverse.find? (fun q => k == q.1) with
      | some q => simp [h]
      | none =>
          by_cases hk : k = p.1
          · simp [h, List.find?_cons, hk, dictInsert]
          · simp [h, List.find?_cons, hk, dictInsert]

theorem field_map_eq_find (s : Schema) (n : String) :
    s.field_map n = s._fields.reverse.find? (fun f => n == f.name) := by
  show pyDict (s._fields.map (fun f => (f.name, f))) n = _
  unfold pyDict
  rw [foldl_dictInsert, ← List.map_reverse, List.find?_map]
  show (match Option.map (fun f => (f.name, f))
        (List.find? (fun f => n == f.name) s._fields.reverse) with
      | some p => some p.2
      | none => none) = _
  cases List.find? (fun f => n == f.name) s._fields.reverse with
  | some f => rfl
  | none => rfl

theorem getitem_int_ofNat (s : Schema) (i : Nat) :
    s.getitem (.int (i : Int)) = Except.ok s._fields[i]? := by
  show (if (s._fields.length : Int) > (i : Int)
      then Except.map some (pyListGet s._fields (i : Int))
      else Except.ok none) = Except.ok s._fields[i]?
  by_cases h : i < s._fields.length
  · rw [if_pos (by exact_mod_cast h)]
    unfold pyListGet
    rw [if_pos (by positivity)]
    have ht : ((i : Int)).toNat < s._fields.length := by
      rw [Int.toNat_natCast]
      exact h
    rw [dif_pos ht, List.getElem?_eq_getElem (show i < s._fields.length from h)]
    show Except.ok (some _) = Except.ok (some _)
    congr 2
  · rw [if_neg (by exact_mod_cast h), List.getElem?_eq_none (by omega)]

/-- C2 counterexample: the index `-1` lies outside `[0, len)` on a one-field
schema, yet `__getitem__` returns the (last) field rather than the absent
result `None`: the guard `len(self._fields) > index` passes for every negative
index and Python list indexing resolves it from the back. -/
theorem c2_counterexample :
    ((-1 : Int) < 0 ∨ (((Schema.mk [SchemaField.integer "a" 1])._fields.length : Int) ≤ -1))
    ∧ (Schema.mk [SchemaField.integer "a" 1]).getitem (.int (-1))
        = Except.ok (some (SchemaField.integer "a" 1))
    ∧ Except.ok (some (SchemaField.integer "a" 1))
        ≠ (Except.ok none : Except PyError (Option SchemaField)) :=
  ⟨Or.inl (by decide), rfl, by decide⟩

/-- C2 amended: lookup with an integer index greater than or equal to
`len(s)` returns the absent result `None` without raising, and lookup with a
name not naming any field likewise returns `None` without raising. (The
original claim also covered negative integer indices, but those resolve from
the back of the list, or raise `IndexError` below `-len(s)` — see C9.) -/
theorem c2_amended (s : Schema) (i : Int) (hi : (s._fields.length : Int) ≤ i)
    (n : String) (hn : ∀ f ∈ s._fields, f.name ≠ n) :
    s.getitem (.int i) = Except.ok none ∧ s.getitem (.name n) = Except.ok none := by
  constructor
  · show (if (s._fields.length : Int) > i
        then Except.map some (pyListGet s._fields i)
        else Except.ok none) = Except.ok none
    rw [if_neg (by omega)]
  · show Except.ok (s.field_map n) = Except.ok none
    rw [field_map_eq_find, List.find?_eq_none.mpr]
    intro f hf
    simpa using (hn f (List.mem_reverse.mp hf)).symm

/-- Witness for the amended C2: index 10 and name lookup of an unknown name
on a three-field schema. -/
theorem c2_witness :
    (Schema.mk [SchemaField.integer "age" 1, SchemaField.discrete "city" 1,
        SchemaField.real "score" 0]).getitem (.int 10) = Except.ok none
    ∧ (Schema.mk [SchemaField.integer "age" 1, SchemaField.discrete "city" 1,
        SchemaField.real "score" 0]).getitem (.name "zip") = Except.ok none :=
  c2_amended
    (Schema.mk [SchemaField.integer "age" 1, SchemaField.discrete "city" 1,
      SchemaField.real "score" 0])
    10 (by decide) "zip" (by decide)

/-- C9: on a Schema with `n` fields, an integer index `i` with
`-n ≤ i ≤ -1` is not absent: the `len > index` guard passes and Python
negative indexing returns the field at position `n + i`; an integer index
below `-n` raises `IndexError`. -/
theorem c9_negative_index (s : Schema) (i : Int) (hneg : i ≤ -1) :
    (-(s._fields.length : Int) ≤ i →
      ∃ h : ((s._fields.length : Int) + i).toNat < s._fields.length,
        s.getitem (.int i) =
          Except.ok (some (s._fields.get ⟨((s._fields.length : Int) + i).toNat, h⟩)))
    ∧ (i < -(s._fields.length : Int) →
        s.getitem (.int i) = Except.error PyError.indexError) := by
  have hguard : (s._fields.length : Int) > i := by omega
  have hshow : s.getitem (.int i) = Except.map some (pyListGet s._fields i) := by
    show (if (s._fields.length : Int) > i
        then Except.map some (pyListGet s._fields i)
        else Except.ok none) = _
    rw [if_pos hguard]
  constructor
  · intro hin
    have hlt : ((s._fields.length : Int) + i).toNat < s._fields.length := by omega
    refine ⟨hlt, ?_⟩
    rw [hshow]
    unfold pyListGet
    rw [if_neg (by omega), if_pos (by omega), dif_pos hlt]
    rfl
  · intro hout
    rw [hshow]
    unfold pyListGet
    rw [if_neg (by omega), if_neg (by omega)]
    rfl

/-- Witness for C9 on a two-field schema: index `-1` yields the last field,
index `-3` raises `IndexError`. -/
theorem c9_witness :
    (Schema.mk [SchemaField.integer "a" 1, SchemaField.real "b" 2]).getitem (.int (-1))
      = Except.ok (some (SchemaField.real "b" 2))
    ∧ (Schema.mk [SchemaField.integer "a" 1, SchemaField.real "b" 2]).getitem (.int (-3))
      = Except.error PyError.indexError := by
  constructor
  · obtain ⟨h, he⟩ :=
      (c9_negative_index (Schema.mk [SchemaField.integer "a" 1, SchemaField.real "b" 2])
        (-1) (by decide)).1 (by decide)
    rw [he]
    rfl
  · exact
      (c9_negative_index (Schema.mk [SchemaField.integer "a" 1, SchemaField.real "b" 2])
        (-3) (by decide)).2 (by decide)

theorem mapM_parseField_ok_nth (l : List Schema.FieldRecord) (fs : List SchemaField)
    (h : l.mapM Schema.parseField = Except.ok fs) (i : Nat) :
    (l[i]?).map Schema.parseField = (fs[i]?).map Except.ok := by
  induction l generalizing fs i with
  | nil =>
      have h0 : (Except.ok [] : Except PyError (List SchemaField)) = Except.ok fs := h
      cases Except.ok.inj h0
      rfl
  | cons a l ih =>
      rw [List.mapM_cons] at h
      cases ha : Schema.parseField a with
      | error e =>
          rw [ha] at h
          exact Except.noConfusion h
      | ok f =>
          rw [ha] at h
          cases hm : l.mapM Schema.parseField with
          | error e =>
              rw [hm] at h
              exact Except.noConfusion h
          | ok fs2 =>
              rw [hm] at h
              have h1 : Except.ok (f :: fs2) = Except.ok fs := h
              cases Except.ok.inj h1
              cases i with
              | zero =>
                  rw [List.getElem?_cons_zero, List.getElem?_cons_zero]
                  simp [ha]
              | succ n =>
                  rw [List.getElem?_cons_succ, List.getElem?_cons_succ]
                  exact ih fs2 hm n

theorem parse_text_ok (spec : Schema.SchemaSpec) (s : Schema)
    (h : Schema.parse (.text spec) = Except.ok s) :
    ∃ fs, spec.fields.mapM Schema.parseField = Except.ok fs ∧ fs ≠ [] ∧ s = Schema.mk fs := by
  have h' : (do
      let fields ← spec.fields.mapM Schema.parseField
      Schema.init fields) = Except.ok s := h
  cases hm : spec.fields.mapM Schema.parseField with
  | error e =>
      rw [hm] at h'
      exact Except.noConfusion h'
  | ok fs =>
      rw [hm] at h'
      have h2 : Schema.init fs = Except.ok s := h'
      obtain ⟨hne, rfl⟩ := (init_ok_iff fs s).mp h2
      exact ⟨fs, rfl, hne, rfl⟩

/-- C6: constructing a Schema from a non-empty sequence of uniquely named
fields makes the `fields` property yield exactly the input fields' names in
the input order. (The source property returns a fresh list on each access —
Python 2 `map` — so re-iteration yields the same sequence; in this embedding
the property is a list value, restartable by construction.) -/
theorem c6_fields_names (fields : List SchemaField) (hne : fields ≠ [])
    (huniq : List.Pairwise (fun f g => f.name ≠ g.name) fields)
    (s : Schema) (hs : Schema.init fields = Except.ok s) :
    s.fields = fields.map SchemaField.name := by
  obtain ⟨-, rfl⟩ := (init_ok_iff fields s).mp hs
  rfl

/-- Witness for C6 on a two-field schema. -/
theorem c6_witness :
    (Schema.mk [SchemaField.integer "age" 1, SchemaField.real "score" 0]).fields
      = ["age", "score"] := by
  have h := c6_fields_names [SchemaField.integer "age" 1, SchemaField.real "score" 0]
    (by decide) (by decide)
    (Schema.mk [SchemaField.integer "age" 1, SchemaField.real "score" 0]) rfl
  rw [h]
  rfl

/-- C7: a parsed field record that omits the `length` key produces a
SchemaField whose length is the default `1`. -/
theorem c7_length_default (spec : Schema.SchemaSpec) (s : Schema)
    (hs : Schema.parse (.text spec) = Except.ok s)
    (i : Nat) (r : Schema.FieldRecord)
    (hr : spec.fields[i]? = some r) (hlen : r.length = none) :
    ∃ f, s._fields[i]? = some f ∧ f.name = r.name ∧ f.length = 1 := by
  obtain ⟨fs, hm, hne, rfl⟩ := parse_text_ok spec s hs
  have hnth := mapM_parseField_ok_nth spec.fields fs hm i
  rw [hr] at hnth
  cases hf : fs[i]? with
  | none =>
      rw [hf] at hnth
      exact Option.noConfusion hnth
  | some f =>
      rw [hf] at hnth
      have h2 : some (Schema.parseField r) = some (Except.ok f) := hnth
      have hpf : Schema.parseField r = Except.ok f := Option.some.inj h2
      refine ⟨f, rfl, ?_⟩
      unfold Schema.parseField at hpf
      split at hpf
      · cases Except.ok.inj hpf
        simp [hlen]
      · exact Except.noConfusion hpf

/-- Witness for C7 at the one-record spec `{name: a, type: real}` with no
`length` key. -/
theorem c7_witness :
    ∃ f, (Schema.mk [SchemaField.real "a" 1])._fields[0]? = some f
      ∧ f.name = "a" ∧ f.length = 1 :=
  c7_length_default (Schema.SchemaSpec.mk [Schema.FieldRecord.mk "a" "real" none])
    (Schema.mk [SchemaField.real "a" 1]) rfl 0
    (Schema.FieldRecord.mk "a" "real" none) rfl rfl

/-- C8: when the constructed field sequence contains two fields with the same
name, name lookup returns the later one (the dict binding built last wins),
while both fields remain reachable at their ordinal positions. -/
theorem c8_duplicate_names (fs1 fs2 fs3 : List SchemaField) (f g : SchemaField)
    (hname : f.name = g.name)
    (hafter : ∀ x ∈ fs3, x.name ≠ g.name)
    (s : Schema)
    (hs : Schema.init (fs1 ++ f :: (fs2 ++ g :: fs3)) = Except.ok s) :
    s.getitem (.name g.name) = Except.ok (some g)
    ∧ s.getitem (.int (fs1.length : Int)) = Except.ok (some f)
    ∧ s.getitem (.int ((fs1.length + fs2.length + 1 : Nat) : Int)) = Except.ok (some g) := by
  obtain ⟨-, rfl⟩ := (init_ok_iff _ s).mp hs
  refine ⟨?_, ?_, ?_⟩
  · show Except.ok (Schema.field_map _ g.name) = _
    rw [field_map_eq_find]
    have h3 : fs3.reverse.find? (fun x => g.name == x.name) = none :=
      List.find?_eq_none.mpr (by
        intro x hx
        simpa using (hafter x (List.mem_reverse.mp hx)).symm)
    congr 1
    simp [List.reverse_append, List.find?_append, h3, List.find?_cons]
  · rw [getitem_int_ofNat]
    show Except.ok ((fs1 ++ f :: (fs2 ++ g :: fs3))[fs1.length]?) = _
    rw [List.getElem?_append_right (le_refl fs1.length)]
    simp
  · rw [getitem_int_ofNat]
    show Except.ok ((fs1 ++ f :: (fs2 ++ g :: fs3))[fs1.length + fs2.length + 1]?) = _
    rw [List.getElem?_append_right (by omega : fs1.length ≤ fs1.length + fs2.length + 1)]
    have hidx : fs1.length + fs2.length + 1 - fs1.length = fs2.length + 1 := by omega
    rw [hidx, List.getElem?_cons_succ, List.getElem?_append_right (le_refl fs2.length)]
    simp

/-- Witness for C8: two fields both named `a`; name lookup returns the
second, positions 0 and 1 return the first and second respectively. -/
theorem c8_witness :
    (Schema.mk [SchemaField.integer "a" 1, SchemaField.real "a" 2]).getitem (.name "a")
      = Except.ok (some (SchemaField.real "a" 2))
    ∧ (Schema.mk [SchemaField.integer "a" 1, SchemaField.real "a" 2]).getitem (.int 0)
      = Except.ok (some (SchemaField.integer "a" 1))
    ∧ (Schema.mk [SchemaField.integer "a" 1, SchemaField.real "a" 2]).getitem (.int 1)
      = Except.ok (some (SchemaField.real "a" 2)) := by
  have h := c8_duplicate_names [] [] [] (SchemaField.integer "a" 1) (SchemaField.real "a" 2)
    rfl (by intro x hx; cases hx) (Schema.mk [SchemaField.integer "a" 1, SchemaField.real "a" 2])
    rfl
  exact ⟨h.1, h.2.1, h.2.2⟩
